import Mathlib

/-!
Shallow embedding of `src/analysis.py` (CleverPet data sharing protocol
analysis script) and proofs about its documented behaviour.

Timestamps: the script parses event `start`/`end` strings with
`pd.to_datetime` and only ever uses them through ordering, subtraction
(`.dt.total_seconds()`) and `.dt.hour`; we model a parsed timestamp as an
integer count of epoch seconds, so a timedelta in seconds is plain integer
subtraction.  A Python `KeyError` (and the resulting abort of the run) is
modelled by `Option`: `none` means the exception propagated.
-/

namespace CleverPet

/-- An entry of the `agents` list of a JSON event stream: `{id, species}`. -/
structure Agent where
  id : String
  species : String
deriving DecidableEq

/-- An entry of the `events` list: `{id, agent, type, start, end, content}`. -/
structure Event where
  id : String
  agent : String
  type : String
  start : Int
  end_ : Int
  content : String
deriving DecidableEq

/-- One JSON event-stream file:
`{id, provenance, start, end, agents, events}`.  The file-level `start` and
`end` are copied verbatim into every row and never parsed, so they stay
strings. -/
structure EventStream where
  id : String
  provenance : String
  start : String
  end_ : String
  agents : List Agent
  events : List Event
deriving DecidableEq

/-- One flat row produced by `tabulate` (analysis.py lines 158-170). -/
structure Row where
  file_id : String
  provenance : String
  file_start : String
  file_end : String
  event_id : String
  agent : String
  event_type : String
  start : Int
  end_ : Int
  species : String
  content : String
deriving DecidableEq

/-- The `agent2species` dict of `tabulate` (lines 153-156): a dict
comprehension keeps the last entry for a duplicated id, and indexing a
missing id raises `KeyError`, modelled as `none`. -/
def lookupAgent (agents : List Agent) (aid : String) : Option String :=
  (agents.reverse.find? (fun a => a.id == aid)).map Agent.species

/-- The row dict appended for one event (lines 158-170). -/
def mkRow (es : EventStream) (ev : Event) (sp : String) : Row :=
  { file_id := es.id
    provenance := es.provenance
    file_start := es.start
    file_end := es.end_
    event_id := ev.id
    agent := ev.agent
    event_type := ev.type
    start := ev.start
    end_ := ev.end_
    species := sp
    content := ev.content }

/-- The event loop of `tabulate` (lines 157-170): one row per event, in
order; a missing agent id aborts the whole call. -/
def tabulateEvents (es : EventStream) : List Event → Option (List Row)
  | [] => some []
  | ev :: rest =>
    match lookupAgent es.agents ev.agent with
    | none => none
    | some sp => (tabulateEvents es rest).map (fun rows => mkRow es ev sp :: rows)

/-- `tabulate(event_stream)` (lines 147-171). -/
def tabulate (es : EventStream) : Option (List Row) :=
  tabulateEvents es es.events

/-- The loading loop of `main` (lines 15-19): rows of all files are
concatenated in order; an exception in any `tabulate` call aborts the run. -/
def tabulateAll : List EventStream → Option (List Row)
  | [] => some []
  | s :: rest =>
    match tabulate s, tabulateAll rest with
    | some rows, some acc => some (rows ++ acc)
    | _, _ => none

/-- File written by `button_count` (line 47). -/
def button_countFiles (_df : List Row) : List String := ["data/button_count"]

/-- File written by `gap_time` (line 74). -/
def gap_timeFiles (_df : List Row) : List String := ["data/gaps.png"]

/-- File written by `clock` (line 109). -/
def clockFiles (_df : List Row) : List String := ["data/press_by_hour.png"]

/-- Order on rows used by `df.sort_values("start")` (line 52).  The pandas
default sort is not stable, so the embedding fixes one permutation on ties;
no property below depends on tie order. -/
def rowLE (a b : Row) : Prop := a.start ≤ b.start

instance : DecidableRel rowLE := fun a b => inferInstanceAs (Decidable (a.start ≤ b.start))

instance : IsTotal Row rowLE := ⟨fun a b => Int.le_total a.start b.start⟩

instance : IsTrans Row rowLE := ⟨fun _ _ _ h1 h2 => le_trans h1 h2⟩

/-- `df.sort_values("start")` inside `_gap_time` (line 52). -/
def sortByStart (g : List Row) : List Row := List.insertionSort rowLE g

/-- Key order used by `df.groupby` (keys are sorted). -/
def stringLE (a b : String) : Prop := a ≤ b

instance : DecidableRel stringLE := fun a b => inferInstanceAs (Decidable (a ≤ b))

instance : IsTotal String stringLE := ⟨fun a b => le_total a b⟩

instance : IsTrans String stringLE := ⟨fun _ _ _ h1 h2 => le_trans h1 h2⟩

/-- The sorted distinct `file_id` keys of `df.groupby("file_id")`. -/
def groupKeys (df : List Row) : List String :=
  List.insertionSort stringLE (df.map Row.file_id).dedup

/-- The rows of one `groupby("file_id")` group, original order kept. -/
def groupOf (df : List Row) (k : String) : List Row :=
  df.filter (fun r => r.file_id == k)

/-- One group of `_gap_time`, already sorted by `start`. -/
def gapGroup (df : List Row) (k : String) : List Row :=
  sortByStart (groupOf df k)

/-- Gap entries of the non-first rows of a sorted group: lines 53-55.
`transition` is true when the species equals the previous row's species;
`gap = start - end.shift(1)` survives the mask `df.iloc[1:].loc[df.transition]`
only at such positions, every other entry stays NaN (`none`). -/
def gapsAux (prev : Row) : List Row → List (Option Int)
  | [] => []
  | curr :: rest =>
    (if curr.species = prev.species then some (curr.start - prev.end_) else none) ::
      gapsAux curr rest

/-- The final `gap` column of `_gap_time` for one sorted group (lines 52-55):
the first row's gap is NaN (`none`), later rows follow `gapsAux`. -/
def gapsOf : List Row → List (Option Int)
  | [] => []
  | x :: rest => none :: gapsAux x rest

/-- The `rename` helper of `gap_time` (lines 61-66). -/
def rename (species : String) : String :=
  if species = "homo sapeins" then "human -> dog"
  else if species = "canis familiaris" then "human -> dog"
  else species

/-- Python's `in` on strings: substring containment. -/
def strContains (s pat : String) : Bool := decide (pat.data <:+: s.data)

/-- Canine token filter of `ngrams` (lines 113-119); note it has no
`content != "null"` clause, unlike the human filter. -/
def canineTokenP (r : Row) : Bool :=
  r.species == "canis familiaris" &&
  !(strContains r.content "OTHER") &&
  !(strContains r.content " or ") &&
  r.content != "" &&
  decide (r.content.length < 10) &&
  r.event_type == "button_press"

/-- Human token filter of `ngrams` (lines 129-136). -/
def humanTokenP (r : Row) : Bool :=
  r.species == "homo sapiens" &&
  !(strContains r.content "OTHER") &&
  !(strContains r.content " or ") &&
  r.content != "" &&
  r.content != "null" &&
  decide (r.content.length < 10) &&
  r.event_type == "button_press"

/-- Rows selected by the canine filter (line 113). -/
def ngramTokensCanine (df : List Row) : List Row := df.filter canineTokenP

/-- Rows selected by the human filter (line 129). -/
def ngramTokensHuman (df : List Row) : List Row := df.filter humanTokenP

/-- Python `tuple(sorted([prev, curr]))` on two strings (lines 123, 140). -/
def sortPair (a b : String) : String × String :=
  if a ≤ b then (a, b) else (b, a)

/-- The pairs contributed by one group: `zip(gdf.content, gdf.content.iloc[1:])`
mapped through `sortPair` (lines 122-123). -/
def adjPairs : List Row → List (String × String)
  | [] => []
  | [_] => []
  | p :: c :: rest => sortPair p.content c.content :: adjPairs (c :: rest)

/-- All pairs appended by the `groupby("file_id")` loop (lines 120-123). -/
def ngramPairsOf (tokens : List Row) : List (String × String) :=
  ((groupKeys tokens).map (fun k => adjPairs (groupOf tokens k))).flatten

/-- One step of `collections.Counter` construction: increment an existing
key, else append it with count 1 (insertion order preserved). -/
def counterAdd {α : Type} [DecidableEq α] (acc : List (α × Nat)) (x : α) :
    List (α × Nat) :=
  if acc.any (fun p => p.1 == x) then
    acc.map (fun p => if p.1 == x then (p.1, p.2 + 1) else p)
  else acc ++ [(x, 1)]

/-- `collections.Counter(l)` as an association list in insertion order. -/
def counter {α : Type} [DecidableEq α] (l : List α) : List (α × Nat) :=
  l.foldl counterAdd []

/-- `Counter.most_common()` sorts by count, largest first; comparison used
by that (stable) sort. -/
def countGE {α : Type} (p q : α × Nat) : Prop := q.2 ≤ p.2

instance {α : Type} : DecidableRel (@countGE α) :=
  fun p q => inferInstanceAs (Decidable (q.2 ≤ p.2))

instance {α : Type} : IsTotal (α × Nat) countGE := ⟨fun p q => le_total q.2 p.2⟩

instance {α : Type} : IsTrans (α × Nat) countGE := ⟨fun _ _ _ h1 h2 => le_trans h2 h1⟩

/-- `Counter.most_common()` (lines 126, 143). -/
def most_common {α : Type} (c : List (α × Nat)) : List (α × Nat) :=
  List.insertionSort countGE c

/-- Ranked canine pairs written to `data/canine_ngrams.csv` (lines 125-127). -/
def canineNgramCounts (df : List Row) : List ((String × String) × Nat) :=
  most_common (counter (ngramPairsOf (ngramTokensCanine df)))

/-- Ranked human pairs written to `data/human_ngrams.csv` (lines 142-144). -/
def humanNgramCounts (df : List Row) : List ((String × String) × Nat) :=
  most_common (counter (ngramPairsOf (ngramTokensHuman df)))

/-- The two CSV files written by `ngrams`, with name and ranked content. -/
def ngramsFiles (df : List Row) : List (String × List ((String × String) × Nat)) :=
  [("data/canine_ngrams.csv", canineNgramCounts df),
   ("data/human_ngrams.csv", humanNgramCounts df)]

/-- The files written by one run of `main` (lines 13-28), in program order;
`none` when a `tabulate` call raised and the run aborted. -/
def mainOutputs (streams : List EventStream) : Option (List String) :=
  match tabulateAll streams with
  | none => none
  | some df =>
    some ("table.csv" ::
      (button_countFiles df ++ gap_timeFiles df ++ clockFiles df ++
        (ngramsFiles df).map Prod.fst))

/-- `N = 23` in `clock` (line 81). -/
def clock_N : Nat := 23

/-- `.dt.hour` of an epoch-seconds timestamp (floor division). -/
def hourOf (t : Int) : Int := (Int.fdiv t 3600) % 24

/-- The data series binned by `clock` (line 96): start hours of rows whose
species is "canis familiaris". -/
def clockHours (df : List Row) : List Int :=
  (df.filter (fun r => r.species == "canis familiaris")).map (fun r => hourOf r.start)

/-- Bin index assigned by `np.histogram(xs, bins = N)` to a sample `x`, for
bin edges spread evenly over `[lo, hi]`: the rightmost bin is closed. -/
def npBin (lo hi : ℚ) (N : Nat) (x : ℚ) : Nat :=
  if hi ≤ x then N - 1
  else (Int.floor ((N : ℚ) * (x - lo) / (hi - lo))).toNat

/-! Concrete sample data used by the witness theorems. -/

/-- A canine agent. -/
def agDog : Agent := { id := "a1", species := "canis familiaris" }

/-- A human agent. -/
def agHuman : Agent := { id := "a2", species := "homo sapiens" }

/-- A button press by the dog. -/
def evDog : Event :=
  { id := "e1", agent := "a1", type := "button_press",
    start := 100, end_ := 110, content := "play" }

/-- A later button press by the dog. -/
def evDog2 : Event :=
  { id := "e2", agent := "a1", type := "button_press",
    start := 200, end_ := 210, content := "ball" }

/-- A button press by the human. -/
def evHuman : Event :=
  { id := "e3", agent := "a2", type := "button_press",
    start := 300, end_ := 310, content := "walk" }

/-- A well-formed event stream with one dog press. -/
def esOne : EventStream :=
  { id := "f1", provenance := "study", start := "2020-01-01", end_ := "2020-01-02",
    agents := [agDog, agHuman], events := [evDog] }

/-- A well-formed stream: dog press, dog press, human press. -/
def esThree : EventStream :=
  { id := "f1", provenance := "study", start := "2020-01-01", end_ := "2020-01-02",
    agents := [agDog, agHuman], events := [evDog, evDog2, evHuman] }

/-- A stream whose event names an agent that is absent from `agents`. -/
def esBad : EventStream :=
  { id := "f2", provenance := "study", start := "2020-01-01", end_ := "2020-01-02",
    agents := [agHuman], events := [evDog] }

/-- The row `tabulate` produces for `evDog` in `esOne`/`esThree`. -/
def rowDog : Row := mkRow esOne evDog "canis familiaris"

/-- The row for `evDog2` in `esThree`. -/
def rowDog2 : Row := mkRow esThree evDog2 "canis familiaris"

/-- The row for `evHuman` in `esThree`. -/
def rowHuman : Row := mkRow esThree evHuman "homo sapiens"

/-! Helper lemmas about `tabulate`. -/

theorem tabulateEvents_length (es : EventStream) :
    ∀ (evs : List Event) (rows : List Row),
      tabulateEvents es evs = some rows → rows.length = evs.length
  | [], rows, h => by
    simp only [tabulateEvents, Option.some.injEq] at h
    subst h; rfl
  | ev :: rest, rows, h => by
    unfold tabulateEvents at h
    cases hl : lookupAgent es.agents ev.agent with
    | none => rw [hl] at h; exact absurd h (by simp)
    | some sp =>
      rw [hl] at h
      rcases Option.map_eq_some'.mp h with ⟨rows', hrec, hcons⟩
      have ih := tabulateEvents_length es rest rows' hrec
      subst hcons
      simp [ih]

theorem tabulateEvents_get (es : EventStream) :
    ∀ (evs : List Event) (rows : List Row),
      tabulateEvents es evs = some rows →
      ∀ (i : Nat) (ev : Event), evs[i]? = some ev →
        ∃ sp, lookupAgent es.agents ev.agent = some sp ∧
          rows[i]? = some (mkRow es ev sp)
  | [], _, _, i, ev, hev => by simp at hev
  | e :: rest, rows, h, i, ev, hev => by
    unfold tabulateEvents at h
    cases hl : lookupAgent es.agents e.agent with
    | none => rw [hl] at h; exact absurd h (by simp)
    | some sp =>
      rw [hl] at h
      rcases Option.map_eq_some'.mp h with ⟨rows', hrec, hcons⟩
      subst hcons
      cases i with
      | zero =>
        simp only [List.getElem?_cons_zero, Option.some.injEq] at hev
        subst hev
        exact ⟨sp, hl, by simp⟩
      | succ j =>
        simp only [List.getElem?_cons_succ] at hev ⊢
        exact tabulateEvents_get es rest rows' hrec j ev hev

theorem lookupAgent_none (agents : List Agent) (aid : String)
    (h : ∀ a ∈ agents, a.id ≠ aid) : lookupAgent agents aid = none := by
  unfold lookupAgent
  rw [List.find?_eq_none.mpr]
  · rfl
  · intro a ha
    simp only [beq_iff_eq]
    exact h a (List.mem_reverse.mp ha)

theorem tabulateEvents_none (es : EventStream) :
    ∀ (evs : List Event) (ev : Event), ev ∈ evs →
      lookupAgent es.agents ev.agent = none → tabulateEvents es evs = none
  | e :: rest, ev, hmem, h => by
    unfold tabulateEvents
    rcases List.mem_cons.mp hmem with heq | htail
    · subst heq; rw [h]
    · cases hl : lookupAgent es.agents e.agent with
      | none => rfl
      | some sp => rw [tabulateEvents_none es rest ev htail h]; rfl

theorem tabulateAll_none :
    ∀ (streams : List EventStream) (es : EventStream), es ∈ streams →
      tabulate es = none → tabulateAll streams = none
  | s :: rest, es, hmem, h => by
    unfold tabulateAll
    rcases List.mem_cons.mp hmem with heq | htail
    · subst heq
      rw [h]
    · rw [tabulateAll_none rest es htail h]
      cases tabulate s <;> rfl

/-- C1: for every event stream, `tabulate` returns exactly one row per
element of the stream's events list, in the same order; each row carries the
fields file_id, provenance, file_start, file_end, event_id, agent,
event_type, start, end, species, content, with file_id, provenance,
file_start and file_end copied from the stream's top-level id, provenance,
start and end, and the per-event fields copied from the event. -/
theorem tabulate_one_row_per_event (es : EventStream) (rows : List Row)
    (h : tabulate es = some rows) (i : Nat) (ev : Event)
    (hev : es.events[i]? = some ev) :
    rows.length = es.events.length ∧
    ∃ r, rows[i]? = some r ∧
      r.file_id = es.id ∧ r.provenance = es.provenance ∧
      r.file_start = es.start ∧ r.file_end = es.end_ ∧
      r.event_id = ev.id ∧ r.agent = ev.agent ∧ r.event_type = ev.type ∧
      r.start = ev.start ∧ r.end_ = ev.end_ ∧ r.content = ev.content := by
  refine ⟨tabulateEvents_length es es.events rows h, ?_⟩
  rcases tabulateEvents_get es es.events rows h i ev hev with ⟨sp, _, hr⟩
  exact ⟨mkRow es ev sp, hr, rfl, rfl, rfl, rfl, rfl, rfl, rfl, rfl, rfl, rfl⟩

/-- Witness for C1 on the concrete stream `esOne`. -/
theorem tabulate_one_row_per_event_w :
    [rowDog].length = esOne.events.length ∧
    ∃ r, [rowDog][0]? = some r ∧
      r.file_id = esOne.id ∧ r.provenance = esOne.provenance ∧
      r.file_start = esOne.start ∧ r.file_end = esOne.end_ ∧
      r.event_id = evDog.id ∧ r.agent = evDog.agent ∧ r.event_type = evDog.type ∧
      r.start = evDog.start ∧ r.end_ = evDog.end_ ∧ r.content = evDog.content :=
  tabulate_one_row_per_event esOne [rowDog] (by decide) 0 evDog (by decide)

/-- C2: when an event's agent identifier appears as the id of an agent of
the stream (unambiguously, i.e. every agent entry carrying that id records
the same species), the species field of the row `tabulate` produces for
that event is that agent's recorded species. -/
theorem tabulate_species_lookup (es : EventStream) (rows : List Row)
    (h : tabulate es = some rows) (i : Nat) (r : Row) (ev : Event)
    (hr : rows[i]? = some r) (hev : es.events[i]? = some ev)
    (a : Agent) (ha : a ∈ es.agents) (hid : a.id = ev.agent)
    (hu : ∀ b ∈ es.agents, b.id = ev.agent → b.species = a.species) :
    r.species = a.species := by
  rcases tabulateEvents_get es es.events rows h i ev hev with ⟨sp, hl, hr'⟩
  have hrr : r = mkRow es ev sp := Option.some.inj (hr.symm.trans hr')
  unfold lookupAgent at hl
  rcases Option.map_eq_some'.mp hl with ⟨b, hfind, hbsp⟩
  have hbmem : b ∈ es.agents := List.mem_reverse.mp (List.mem_of_find?_eq_some hfind)
  have hbid : b.id = ev.agent := by
    have := List.find?_some hfind
    simpa [beq_iff_eq] using this
  have : b.species = a.species := hu b hbmem hbid
  rw [hrr]
  show sp = a.species
  rw [← hbsp, this]

/-- Witness for C2: the dog press in `esOne` gets the dog agent's species. -/
theorem tabulate_species_lookup_w : rowDog.species = agDog.species :=
  tabulate_species_lookup esOne [rowDog] (by decide) 0 rowDog evDog (by decide)
    (by decide) agDog (by decide) (by decide) (by decide)

/-- C6: a stream containing an event whose agent identifier is absent from
the agents list makes `tabulate` raise the default `KeyError` (modelled as
`none`), the exception propagates out of `main`, and the run produces no
output at all. -/
theorem malformed_input_no_output (es : EventStream) (ev : Event)
    (hev : ev ∈ es.events) (hmiss : ∀ a ∈ es.agents, a.id ≠ ev.agent)
    (pre post : List EventStream) :
    tabulate es = none ∧ mainOutputs (pre ++ es :: post) = none := by
  have ht : tabulate es = none :=
    tabulateEvents_none es es.events ev hev
      (lookupAgent_none es.agents ev.agent hmiss)
  refine ⟨ht, ?_⟩
  have hmem : es ∈ pre ++ es :: post := by simp
  unfold mainOutputs
  rw [tabulateAll_none (pre ++ es :: post) es hmem ht]

/-- Witness for C6 on the concrete stream `esBad`. -/
theorem malformed_input_no_output_w :
    tabulate esBad = none ∧ mainOutputs ([] ++ esBad :: []) = none :=
  malformed_input_no_output esBad evDog (by decide) (by decide) [] []

/-- C7: `main` is a fixed linear pipeline: every file is loaded and
flattened before the table exists, the flattened-events CSV is written
first, and the remaining stages run in the order button count, gap time,
clock, ngrams, producing their outputs in exactly that order. -/
theorem main_pipeline_order (streams : List EventStream) (df : List Row)
    (h : tabulateAll streams = some df) :
    mainOutputs streams =
      some ["table.csv", "data/button_count", "data/gaps.png",
            "data/press_by_hour.png", "data/canine_ngrams.csv",
            "data/human_ngrams.csv"] := by
  unfold mainOutputs
  rw [h]
  rfl

/-- Witness for C7 on a run over the single file `esOne`. -/
theorem main_pipeline_order_w :
    mainOutputs [esOne] =
      some ["table.csv", "data/button_count", "data/gaps.png",
            "data/press_by_hour.png", "data/canine_ngrams.csv",
            "data/human_ngrams.csv"] :=
  main_pipeline_order [esOne] [rowDog] (by decide)

/-! Helper lemmas about the gap column. -/

theorem gapsAux_length :
    ∀ (l : List Row) (prev : Row), (gapsAux prev l).length = l.length
  | [], _ => rfl
  | c :: rest, prev => by simp [gapsAux, gapsAux_length rest c]

theorem gapsOf_length : ∀ l : List Row, (gapsOf l).length = l.length
  | [] => rfl
  | x :: rest => by simp [gapsOf, gapsAux_length rest x]

theorem gapsAux_getElem_some :
    ∀ (l : List Row) (prev : Row) (j : Nat) (o : Option Int),
      (gapsAux prev l)[j]? = some o →
      ∃ p c, (prev :: l)[j]? = some p ∧ l[j]? = some c ∧
        o = if c.species = p.species then some (c.start - p.end_) else none
  | [], _, j, o, h => by simp [gapsAux] at h
  | c0 :: rest, prev, j, o, h => by
    cases j with
    | zero =>
      simp only [gapsAux, List.getElem?_cons_zero, Option.some.injEq] at h
      exact ⟨prev, c0, by simp, by simp, h.symm⟩
    | succ j' =>
      simp only [gapsAux, List.getElem?_cons_succ] at h
      rcases gapsAux_getElem_some rest c0 j' o h with ⟨p, c, hp, hc, ho⟩
      exact ⟨p, c, by simpa using hp, by simpa using hc, ho⟩

theorem gapsAux_getElem_eq :
    ∀ (l : List Row) (prev : Row) (j : Nat) (p c : Row),
      (prev :: l)[j]? = some p → l[j]? = some c →
      (gapsAux prev l)[j]? =
        some (if c.species = p.species then some (c.start - p.end_) else none)
  | [], _, j, _, _, _, hc => by simp at hc
  | c0 :: rest, prev, j, p, c, hp, hc => by
    cases j with
    | zero =>
      simp only [List.getElem?_cons_zero, Option.some.injEq] at hp hc
      subst hp; subst hc
      simp [gapsAux]
    | succ j' =>
      simp only [List.getElem?_cons_succ] at hp hc
      simpa [gapsAux] using gapsAux_getElem_eq rest c0 j' p c hp hc

/-- C3 counterexample: in the file group of `rowDog` and `rowHuman` (sorted
by start), the second event's final gap entry is NaN, not its start minus
the previous end (190 seconds), because the species changes between the two
events. -/
theorem gap_time_cex :
    ¬ (gapsOf (gapGroup [rowDog, rowHuman] "f1"))[1]? =
        some (some (rowHuman.start - rowDog.end_)) := by decide

/-- C3 (amended): in the gap-time computation events are grouped by file_id
and each group is sorted by start time; the first event of a group has no
gap, and every retained gap value is that event's start minus the previous
event's end within the group, expressed in seconds (gaps are retained only
at same-species transitions, see C8). -/
theorem gap_time_grouped_sorted (df : List Row) (k : String) (i : Nat) (v : Int)
    (hk : k ∈ groupKeys df)
    (hv : (gapsOf (gapGroup df k))[i]? = some (some v)) :
    List.Sorted rowLE (gapGroup df k) ∧
    (gapsOf (gapGroup df k)).length = (gapGroup df k).length ∧
    1 ≤ i ∧
    ∃ p c, (gapGroup df k)[i - 1]? = some p ∧ (gapGroup df k)[i]? = some c ∧
      v = c.start - p.end_ ∧ c.species = p.species := by
  refine ⟨by simpa [gapGroup, sortByStart] using
      List.sorted_insertionSort rowLE (groupOf df k),
    gapsOf_length (gapGroup df k), ?_⟩
  cases hg : gapGroup df k with
  | nil => rw [hg] at hv; simp [gapsOf] at hv
  | cons x rest =>
    rw [hg] at hv
    cases i with
    | zero => simp [gapsOf] at hv
    | succ j =>
      have hv' : (gapsAux x rest)[j]? = some (some v) := by
        simpa [gapsOf] using hv
      rcases gapsAux_getElem_some rest x j (some v) hv' with ⟨p, c, hp, hc, ho⟩
      by_cases hsp : c.species = p.species
      · rw [if_pos hsp] at ho
        refine ⟨by omega, p, c, ?_, ?_, Option.some.inj ho, hsp⟩
        · simpa using hp
        · simpa using hc
      · rw [if_neg hsp] at ho
        exact absurd ho (by simp)

/-- Witness for C3 (amended): two same-species presses in file f1, gap 90. -/
theorem gap_time_grouped_sorted_w :
    List.Sorted rowLE (gapGroup [rowDog, rowDog2] "f1") ∧
    (gapsOf (gapGroup [rowDog, rowDog2] "f1")).length =
      (gapGroup [rowDog, rowDog2] "f1").length ∧
    1 ≤ 1 ∧
    ∃ p c, (gapGroup [rowDog, rowDog2] "f1")[1 - 1]? = some p ∧
      (gapGroup [rowDog, rowDog2] "f1")[1]? = some c ∧
      (90 : Int) = c.start - p.end_ ∧ c.species = p.species :=
  gap_time_grouped_sorted [rowDog, rowDog2] "f1" 1 90 (by decide) (by decide)

/-- C8: within a sorted file group, the gap entry of a non-first event is
retained (a number) exactly when the event's species equals the previous
event's species, in which case it is start minus previous end; at a species
change the entry is dropped (NaN). -/
theorem gap_species_transition (df : List Row) (k : String) (i : Nat) (p c : Row)
    (hp : (gapGroup df k)[i]? = some p) (hc : (gapGroup df k)[i + 1]? = some c) :
    ((gapsOf (gapGroup df k))[i + 1]? = some (some (c.start - p.end_)) ↔
      c.species = p.species) ∧
    (c.species ≠ p.species → (gapsOf (gapGroup df k))[i + 1]? = some none) := by
  cases hg : gapGroup df k with
  | nil => rw [hg] at hp; simp at hp
  | cons x rest =>
    rw [hg] at hp hc
    have hcr : rest[i]? = some c := by simpa using hc
    have key := gapsAux_getElem_eq rest x i p c hp hcr
    have hgaps : (gapsOf (x :: rest))[i + 1]? = (gapsAux x rest)[i]? := by
      simp [gapsOf]
    rw [hgaps, key]
    constructor
    · constructor
      · intro hsome
        by_contra hne
        rw [if_neg hne] at hsome
        simp at hsome
      · intro hsp
        rw [if_pos hsp]
    · intro hne
      rw [if_neg hne]

/-- Witness for C8: a dog press followed by a human press in file f1. -/
theorem gap_species_transition_w :
    ((gapsOf (gapGroup [rowDog, rowHuman] "f1"))[0 + 1]? =
        some (some (rowHuman.start - rowDog.end_)) ↔
      rowHuman.species = rowDog.species) ∧
    (rowHuman.species ≠ rowDog.species →
      (gapsOf (gapGroup [rowDog, rowHuman] "f1"))[0 + 1]? = some none) :=
  gap_species_transition [rowDog, rowHuman] "f1" 0 rowDog rowHuman
    (by decide) (by decide)

/-- C9: the species relabeling of `gap_time` maps both "canis familiaris"
and the misspelled "homo sapeins" to the label "human -> dog", while the
correctly spelled "homo sapiens" is left unchanged. -/
theorem rename_human_dog :
    rename "canis familiaris" = "human -> dog" ∧
    rename "homo sapeins" = "human -> dog" ∧
    rename "homo sapiens" = "homo sapiens" := by decide

/-! Helper lemmas about the n-gram pair construction. -/

theorem sortPair_comm (a b : String) : sortPair a b = sortPair b a := by
  unfold sortPair
  rcases le_total a b with hab | hba
  · by_cases hba' : b ≤ a
    · have : a = b := le_antisymm hab hba'
      subst this; rfl
    · rw [if_pos hab, if_neg hba']
  · by_cases hab' : a ≤ b
    · have : a = b := le_antisymm hab' hba
      subst this; rfl
    · rw [if_neg hab', if_pos hba]

theorem adjPairs_length : ∀ l : List Row, (adjPairs l).length = l.length - 1
  | [] => rfl
  | [_] => rfl
  | p :: c :: rest => by
    have ih := adjPairs_length (c :: rest)
    simp only [adjPairs, List.length_cons] at ih ⊢
    omega

theorem adjPairs_getElem :
    ∀ (l : List Row) (i : Nat) (p c : Row),
      l[i]? = some p → l[i + 1]? = some c →
      (adjPairs l)[i]? = some (sortPair p.content c.content)
  | [], _, _, _, hp, _ => by simp at hp
  | [_], i, _, _, _, hc => by cases i <;> simp at hc
  | p0 :: c0 :: rest, i, p, c, hp, hc => by
    cases i with
    | zero =>
      simp only [List.getElem?_cons_zero, List.getElem?_cons_succ,
        Option.some.injEq] at hp hc
      subst hp; subst hc
      simp [adjPairs]
    | succ j =>
      simp only [List.getElem?_cons_succ] at hp hc
      have hc' : (c0 :: rest)[j + 1]? = some c := by simpa using hc
      simpa [adjPairs] using adjPairs_getElem (c0 :: rest) j p c hp hc'

theorem groupOf_file_id (df : List Row) (k : String) (r : Row)
    (hr : r ∈ groupOf df k) : r.file_id = k := by
  have h := List.mem_filter.mp hr
  simpa [beq_iff_eq] using h.2

/-- C4: the program writes exactly two CSV files of co-occurrence pairs,
`data/canine_ngrams.csv` for canine button presses and
`data/human_ngrams.csv` for human button presses, and each lists its pairs
ranked by count in non-increasing order. -/
theorem ngrams_two_ranked_files (df : List Row)
    (fc : String × List ((String × String) × Nat)) (hfc : fc ∈ ngramsFiles df) :
    (ngramsFiles df).length = 2 ∧
    (ngramsFiles df).map Prod.fst =
      ["data/canine_ngrams.csv", "data/human_ngrams.csv"] ∧
    List.Sorted countGE fc.2 := by
  refine ⟨rfl, rfl, ?_⟩
  simp only [ngramsFiles, List.mem_cons, List.mem_singleton,
    List.not_mem_nil, or_false] at hfc
  rcases hfc with h | h
  · subst h
    exact List.sorted_insertionSort countGE _
  · subst h
    exact List.sorted_insertionSort countGE _

/-- Witness for C4 on the empty table. -/
theorem ngrams_two_ranked_files_w :
    (ngramsFiles []).length = 2 ∧
    (ngramsFiles []).map Prod.fst =
      ["data/canine_ngrams.csv", "data/human_ngrams.csv"] ∧
    List.Sorted countGE ("data/canine_ngrams.csv", canineNgramCounts []).2 :=
  ngrams_two_ranked_files [] ("data/canine_ngrams.csv", canineNgramCounts [])
    (by decide)

/-- C5: the co-occurrence n-grams count adjacent pairs: within each file_id
group of the filtered button-press rows, every pair of consecutive rows
contributes the pair of their contents; the pair key is order-insensitive
(the two contents are sorted first, so (a,b) and (b,a) coincide); and no
pair spans two files, since every row of a group carries the group's
file_id. -/
theorem ngrams_adjacent_pairs (df : List Row) (tokens : List Row)
    (htok : tokens = ngramTokensCanine df ∨ tokens = ngramTokensHuman df)
    (a b : String) (k : String) (i : Nat) (p c r : Row)
    (hr : r ∈ groupOf tokens k)
    (hp : (groupOf tokens k)[i]? = some p)
    (hc : (groupOf tokens k)[i + 1]? = some c) :
    sortPair a b = sortPair b a ∧
    (adjPairs (groupOf tokens k)).length = (groupOf tokens k).length - 1 ∧
    (adjPairs (groupOf tokens k))[i]? = some (sortPair p.content c.content) ∧
    r.file_id = k :=
  ⟨sortPair_comm a b, adjPairs_length _, adjPairs_getElem _ i p c hp hc,
    groupOf_file_id tokens k r hr⟩

/-- Witness for C5 on two canine presses in file f1. -/
theorem ngrams_adjacent_pairs_w :
    sortPair "x" "y" = sortPair "y" "x" ∧
    (adjPairs (groupOf (ngramTokensCanine [rowDog, rowDog2]) "f1")).length =
      (groupOf (ngramTokensCanine [rowDog, rowDog2]) "f1").length - 1 ∧
    (adjPairs (groupOf (ngramTokensCanine [rowDog, rowDog2]) "f1"))[0]? =
      some (sortPair rowDog.content rowDog2.content) ∧
    rowDog.file_id = "f1" :=
  ngrams_adjacent_pairs [rowDog, rowDog2] (ngramTokensCanine [rowDog, rowDog2])
    (Or.inl rfl) "x" "y" "f1" 0 rowDog rowDog2 rowDog
    (by decide) (by decide) (by decide)

/-! Helper lemmas about the clock histogram. -/

theorem hourOf_nonneg (t : Int) : 0 ≤ hourOf t :=
  Int.emod_nonneg _ (by norm_num)

theorem hourOf_lt (t : Int) : hourOf t < 24 :=
  Int.emod_lt_of_pos _ (by norm_num)

theorem npBin_hour_lt (x : Int) :
    npBin 0 23 23 (x : ℚ) < 23 := by
  unfold npBin
  by_cases hhi : (23 : ℚ) ≤ (x : ℚ)
  · rw [if_pos hhi]; norm_num
  · rw [if_neg hhi]
    have hx23 : x < 23 := by exact_mod_cast lt_of_not_le hhi
    have hval : ((23 : Nat) : ℚ) * ((x : ℚ) - 0) / (23 - 0) = (x : ℚ) := by
      push_cast
      field_simp
    rw [hval, Int.floor_intCast]
    omega

theorem npBin_at_22 : npBin 0 23 23 22 = 22 := by
  unfold npBin
  rw [if_neg (by norm_num)]
  have hval : ((23 : Nat) : ℚ) * ((22 : ℚ) - 0) / (23 - 0) = ((22 : Int) : ℚ) := by
    push_cast
    field_simp
  rw [hval, Int.floor_intCast]
  rfl

theorem npBin_at_23 : npBin 0 23 23 23 = 22 := by
  unfold npBin
  rw [if_pos (by norm_num)]

/-- C10: the time-of-day polar histogram uses `N = 23` bins, not 24; every
start hour of a canine event (hours run 0 through 23) lands in one of the
23 bins, and the two distinct hours 22 and 23 fall into the same bin. -/
theorem clock_23_bins (df : List Row) (x : Int) (hx : x ∈ clockHours df) :
    clock_N = 23 ∧ clock_N ≠ 24 ∧ 0 ≤ x ∧ x < 24 ∧
    npBin 0 23 clock_N (x : ℚ) < clock_N ∧
    npBin 0 23 clock_N 22 = npBin 0 23 clock_N 23 ∧ (22 : ℚ) ≠ 23 := by
  have hx' : ∃ r, (r ∈ df ∧ r.species = "canis familiaris") ∧ hourOf r.start = x := by
    simpa [clockHours, List.mem_filter] using hx
  rcases hx' with ⟨r, -, hrx⟩
  refine ⟨rfl, by decide, hrx ▸ hourOf_nonneg r.start, hrx ▸ hourOf_lt r.start,
    npBin_hour_lt x, npBin_at_22.trans npBin_at_23.symm, by norm_num⟩

/-- Witness for C10: the hour of the dog press in `rowDog` is 0. -/
theorem clock_23_bins_w :
    clock_N = 23 ∧ clock_N ≠ 24 ∧ (0 : Int) ≤ 0 ∧ (0 : Int) < 24 ∧
    npBin 0 23 clock_N (((0 : Int) : ℚ)) < clock_N ∧
    npBin 0 23 clock_N 22 = npBin 0 23 clock_N 23 ∧ (22 : ℚ) ≠ 23 :=
  clock_23_bins [rowDog] 0 (by decide)

end CleverPet
